import Mathlib

/-!
Verification of the TARS voice-assistant command-interpretation core
(`tars.py`).  The deterministic text-classification layer, the personality
state and the response formatter are embedded as executable Lean
definitions; the external collaborators (speech capture, process launch,
language model) are modelled by explicit parameters.  Decimal numerals that
the Python code handles as floats are modelled exactly as rationals, and
the `:.0f` format directive is modelled as round-half-to-even.
-/

/-- The whitespace class of the regex escape `\s` (ASCII part). -/
def pyIsSpace (c : Char) : Bool :=
  c == ' ' || c == '\t' || c == '\n' || c == '\r' || c == '\x0b' || c == '\x0c'

/-- A sentence-terminating character: `.`, `!` or `?`. -/
def isSentencePunct (c : Char) : Bool :=
  c == '.' || c == '!' || c == '?'

/-- `startsWithList s pre` : does `s` start with the literal `pre`? -/
def startsWithList : List Char → List Char → Bool
  | _, [] => true
  | [], _ :: _ => false
  | c :: cs, p :: ps => c == p && startsWithList cs ps

/-- Substring containment, the Python `needle in hay` test. -/
def containsSub (needle : List Char) : List Char → Bool
  | [] => needle.isEmpty
  | c :: cs => startsWithList (c :: cs) needle || containsSub needle cs

/-- Python's `needle in hay` on strings. -/
def strContains (hay needle : String) : Bool :=
  containsSub needle.data hay.data

/-- Consume the literal `lit` from the front of the input, returning the rest. -/
def dropLit : List Char → List Char → Option (List Char)
  | [], s => some s
  | _ :: _, [] => none
  | l :: ls, c :: cs => if c == l then dropLit ls cs else none

/-- First alternative that consumes, as in the regex group `(a|b)`. -/
def altLit (a b : List Char) (s : List Char) : Option (List Char) :=
  match dropLit a s with
  | some r => some r
  | none => dropLit b s

/-- Greedily drop leading whitespace (`\s*`). -/
def wsStar : List Char → List Char
  | [] => []
  | c :: cs => if pyIsSpace c then wsStar cs else c :: cs

/-- `\s+` : at least one whitespace character, consumed greedily. -/
def ws1 : List Char → Option (List Char)
  | [] => none
  | c :: cs => if pyIsSpace c then some (wsStar cs) else none

/-- Greedily split off leading decimal digits (`\d*`). -/
def digitsStar : List Char → List Char × List Char
  | [] => ([], [])
  | c :: cs =>
    if c.isDigit then
      let p := digitsStar cs
      (c :: p.1, p.2)
    else ([], c :: cs)

/-- Numeric value of a digit string. -/
def digitsVal (ds : List Char) : Nat :=
  ds.foldl (fun a c => a * 10 + (c.toNat - 48)) 0

/-- Rational addition written through `mkRat` (kept kernel-computable; it
agrees with `+`, see `ratAdd_eq`). -/
def ratAdd (a b : Rat) : Rat := mkRat (a.num * b.den + b.num * a.den) (a.den * b.den)

/-- Rational subtraction written through `mkRat` (agrees with `-`, see
`ratSub_eq`). -/
def ratSub (a b : Rat) : Rat := mkRat (a.num * b.den - b.num * a.den) (a.den * b.den)

/-- Rational multiplication written through `mkRat` (agrees with `*`, see
`ratMul_eq`). -/
def ratMul (a b : Rat) : Rat := mkRat (a.num * b.num) (a.den * b.den)

/-- Division of a rational by a natural number, written through `mkRat`
(agrees with `/`, see `ratDivPos_eq`). -/
def ratDivPos (a : Rat) (n : Nat) : Rat := mkRat a.num (a.den * n)

/-- The capture `(\d+(?:\.\d+)?)` parsed as Python's `float`, modelled
exactly as a rational, together with the remaining input. -/
def parseNumber (s : List Char) : Option (Rat × List Char) :=
  match digitsStar s with
  | ([], _) => none
  | (d :: ds, rest) =>
    let intVal : Rat := (digitsVal (d :: ds) : Nat)
    match rest with
    | '.' :: rest2 =>
      match digitsStar rest2 with
      | ([], _) => some (intVal, rest)
      | (f :: fs, rest3) =>
        some (ratAdd intVal (ratDivPos ((digitsVal (f :: fs) : Nat) : Rat) (10 ^ (f :: fs).length)), rest3)
    | _ => some (intVal, rest)

/-- The optional percent indicator `(\s*%| percent)?` : `true` when the group
matched, with the remaining input. -/
def parsePercent (s : List Char) : Bool × List Char :=
  match wsStar s with
  | '%' :: r => (true, r)
  | _ =>
    match s with
    | ' ' :: rest =>
      match dropLit "percent".data rest with
      | some r => (true, r)
      | none => (false, s)
    | _ => (false, s)

/-- The two personality parameters. -/
inductive Param
  | honesty
  | humor
deriving DecidableEq

/-- Match the explicit adjustment pattern
`(set|adjust)\s+(?:your\s+)?(honesty|humor)(\s+level)?\s+to\s+(\d+(?:\.\d+)?)(\s*%| percent)?`
anchored at the head of the input, returning the parameter, the numeric
capture and whether a percent indicator was present. -/
def matchFullAt (s : List Char) : Option (Param × Rat × Bool) :=
  match altLit "set".data "adjust".data s with
  | none => none
  | some s1 =>
    match ws1 s1 with
    | none => none
    | some s2 =>
      let s3 :=
        match dropLit "your".data s2 with
        | some r =>
          match ws1 r with
          | some r2 => r2
          | none => s2
        | none => s2
      match (match dropLit "honesty".data s3 with
             | some r => some (Param.honesty, r)
             | none =>
               match dropLit "humor".data s3 with
               | some r => some (Param.humor, r)
               | none => none) with
      | none => none
      | some (p, s4) =>
        let s5 :=
          match ws1 s4 with
          | some r =>
            match dropLit "level".data r with
            | some r2 => r2
            | none => s4
          | none => s4
        match ws1 s5 with
        | none => none
        | some s6 =>
          match dropLit "to".data s6 with
          | none => none
          | some s7 =>
            match ws1 s7 with
            | none => none
            | some s8 =>
              match parseNumber s8 with
              | none => none
              | some (v, s9) => some (p, v, (parsePercent s9).1)

/-- `re.search` of the explicit pattern: try every start position, leftmost
match wins. -/
def searchFull : List Char → Option (Param × Rat × Bool)
  | [] => matchFullAt []
  | c :: t =>
    match matchFullAt (c :: t) with
    | some g => some g
    | none => searchFull t

/-- Match the elliptical pattern
`(set|adjust)\s+it\s+to\s+(\d+(?:\.\d+)?)(\s*%| percent)?` anchored at the
head of the input. -/
def matchItAt (s : List Char) : Option (Rat × Bool) :=
  match altLit "set".data "adjust".data s with
  | none => none
  | some s1 =>
    match ws1 s1 with
    | none => none
    | some s2 =>
      match dropLit "it".data s2 with
      | none => none
      | some s3 =>
        match ws1 s3 with
        | none => none
        | some s4 =>
          match dropLit "to".data s4 with
          | none => none
          | some s5 =>
            match ws1 s5 with
            | none => none
            | some s6 =>
              match parseNumber s6 with
              | none => none
              | some (v, s7) => some (v, (parsePercent s7).1)

/-- `re.search` of the elliptical pattern. -/
def searchIt : List Char → Option (Rat × Bool)
  | [] => matchItAt []
  | c :: t =>
    match matchItAt (c :: t) with
    | some g => some g
    | none => searchIt t

/-- The global personality state: two fractional levels and the pending
parameter remembered from the last query. -/
structure TarsState where
  honesty : Rat
  humor : Rat
  pending : Option Param
deriving DecidableEq

/-- The defaults at process start: honesty 80 percent, humor 60 percent,
nothing pending. -/
def initState : TarsState where
  honesty := mkRat 8 10
  humor := mkRat 6 10
  pending := none

/-- Read one parameter from the state. -/
def getParam (st : TarsState) : Param → Rat
  | Param.honesty => st.honesty
  | Param.humor => st.humor

/-- The parameter not being addressed. -/
def otherParam : Param → Param
  | Param.honesty => Param.humor
  | Param.humor => Param.honesty

/-- Store `v` in parameter `p` and clear the pending parameter, as both
adjustment branches of `adjust_personality` do. -/
def setParam (st : TarsState) : Param → Rat → TarsState
  | Param.honesty, v => { st with honesty := v, pending := none }
  | Param.humor, v => { st with humor := v, pending := none }

/-- The parameter's name as it appears in the spoken sentences. -/
def paramName : Param → String
  | Param.honesty => "honesty"
  | Param.humor => "humor"

/-- Floor of a rational (used to model the `:.0f` float format). -/
def ratFloor (q : Rat) : Int := q.num / (q.den : Int)

/-- Round to the nearest integer, ties to even: the behaviour of Python's
`:.0f` format directive. -/
def roundHalfEven (q : Rat) : Int :=
  let n := ratFloor q
  let frac := ratSub q ((n : Int) : Rat)
  if frac < mkRat 1 2 then n
  else if mkRat 1 2 < frac then n + 1
  else if n % 2 = 0 then n else n + 1

/-- `f"{value*100:.0f}"` : the level as a whole-number percentage string. -/
def fmtPercent (value : Rat) : String :=
  toString (roundHalfEven (ratMul value 100))

/-- Python's built-in `min` on two numbers (the first argument on ties). -/
def pyMin (a b : Rat) : Rat := if a ≤ b then a else b

/-- Python's built-in `max` on two numbers (the first argument on ties). -/
def pyMax (a b : Rat) : Rat := if b ≤ a then a else b

/-- The numeric normalization shared by both adjustment branches: divide by
100 when a percent indicator is present or the raw value exceeds 1, then
clamp to `[0, 1]` (`max(0.0, min(value, 1.0))`). -/
def normValue (v : Rat) (pct : Bool) : Rat :=
  pyMax 0 (pyMin (if pct = true ∨ 1 < v then ratDivPos v 100 else v) 1)

/-- The confirmation sentence
`f"Adjusted my {param} level to {value*100:.0f} percent."`. -/
def adjustMsg (p : Param) (value : Rat) : String :=
  "Adjusted my " ++ paramName p ++ " level to " ++ fmtPercent value ++ " percent."

/-- `adjust_personality` : search the explicit pattern first and apply it to
the named parameter; otherwise search the elliptical `set it to N` pattern,
which applies only when a parameter is pending.  Returns the spoken
confirmation (`none` models Python's `return None` fall-through) and the
updated state. -/
def adjust_personality (user_input : String) (st : TarsState) : Option String × TarsState :=
  match searchFull user_input.data with
  | some (p, v, pct) =>
    let value := normValue v pct
    (some (adjustMsg p value), setParam st p value)
  | none =>
    match searchIt user_input.data, st.pending with
    | some (v, pct), some p =>
      let value := normValue v pct
      (some (adjustMsg p value), setParam st p value)
    | _, _ => (none, st)

/-- The fixed apology sentence of `generate_llm_response`. -/
def apologySentence : String := "I'm sorry, something went wrong with my response."

/-- Python `str.strip()` : remove leading and trailing whitespace. -/
def pyStrip (s : List Char) : List Char :=
  ((s.dropWhile pyIsSpace).reverse.dropWhile pyIsSpace).reverse

/-- `re.split(r'(?<=[.!?])\s+', s)[0]` : the prefix of `s` up to the first
whitespace character that immediately follows `.`, `!` or `?`. -/
def firstSentenceAux : List Char → List Char
  | [] => []
  | [c] => [c]
  | c :: d :: rest =>
    if isSentencePunct c && pyIsSpace d then [c]
    else c :: firstSentenceAux (d :: rest)

/-- Python `s.endswith(('.', '!', '?'))`. -/
def endsPunct (s : List Char) : Bool :=
  match s.getLast? with
  | some c => isSentencePunct c
  | none => false

/-- The one-liner enforcement of `generate_llm_response` (lines 140-148):
take the first sentence, strip it, terminate it with `.` when needed; the
final emptiness guard mirrors the source's `if not llm_response` check. -/
def formatResponse (llm_response : String) : String :=
  let first := pyStrip (firstSentenceAux llm_response.data)
  let terminated := if endsPunct first then first else first ++ ['.']
  if terminated.isEmpty then apologySentence else String.mk terminated

/-- `generate_llm_response`, parametrized by the outcome of the external
`chat` call: `none` models an exception from the call (the `except` branch),
`some content` models the content string extracted by the reply-shape
adapter (empty when no recognized shape carried text). -/
def generate_llm_response (reply : Option String) : String :=
  match reply with
  | none => apologySentence
  | some content => formatResponse (String.mk (pyStrip content.data))

/-- Behaviour of the external environment during one turn: whether the
process-launch call of the browser branch raises (e.g. `FileNotFoundError`
from `subprocess.Popen`), and the outcome of the language-model call. -/
structure Env where
  browserRaises : Bool
  llmReply : Option String

/-- `execute_command` : returns `some confirmation` exactly when the Python
function speaks a confirmation and returns `True`; `none` models `return
False`.  When the browser launch raises, the exception is caught before the
confirmation is spoken, so the function returns `False`.  `os.system` in
the system-info branch reports failure through its exit status and does not
raise, so that branch always confirms. -/
def execute_command (env : Env) (user_input : String) : Option String :=
  if strContains user_input "open browser" then
    if env.browserRaises then none
    else some "Opening browser."
  else if strContains user_input "system info" then
    some "Displaying system information."
  else none

/-- What one loop iteration of `main` does besides updating the state. -/
inductive TurnAction
  | noop
  | query (msg : String)
  | adjusted (msg : String)
  | exitLoop (msg : String)
  | command (msg : String)
  | chat (msg : String)
deriving DecidableEq

/-- The query classification of `main` (lines 192-199): the `honesty`
branch is tested before the `humor` branch. -/
def queryParam (user_input : String) : Option Param :=
  if strContains user_input "honesty" && strContains user_input "what"
      && strContains user_input "level" then some Param.honesty
  else if strContains user_input "humor" && strContains user_input "what"
      && strContains user_input "level" then some Param.humor
  else none

/-- The query response `f"My {param} level is {level*100:.0f} percent."`. -/
def queryMsg (p : Param) (st : TarsState) : String :=
  "My " ++ paramName p ++ " level is " ++ fmtPercent (getParam st p) ++ " percent."

/-- The exit keywords of `main`. -/
def exitWords : List String := ["exit", "shut down", "goodbye"]

/-- One iteration of the `main` loop on input `user_input`: empty input is
skipped; then query, adjustment, exit, system command and chat are tried in
the source's order.  Returns what the iteration did and the state after it. -/
def processTurn (env : Env) (st : TarsState) (user_input : String) : TurnAction × TarsState :=
  if user_input = "" then (TurnAction.noop, st)
  else
    match queryParam user_input with
    | some p => (TurnAction.query (queryMsg p st), { st with pending := some p })
    | none =>
      match adjust_personality user_input st with
      | (some msg, st1) => (TurnAction.adjusted msg, st1)
      | (none, st1) =>
        if exitWords.any (fun w => strContains user_input w) then
          (TurnAction.exitLoop "Shutting down. Goodbye.", st1)
        else
          match execute_command env user_input with
          | some msg => (TurnAction.command msg, st1)
          | none => (TurnAction.chat (generate_llm_response env.llmReply), st1)

/-- The states the loop can reach from the process-start defaults, under
arbitrary inputs and environment behaviour. -/
inductive Reachable : TarsState → Prop
  | init : Reachable initState
  | step (env : Env) (input : String) {st : TarsState} :
      Reachable st → Reachable (processTurn env st input).2

/-! ## Structural lemmas about the embedding -/

theorem getParam_setParam_self (st : TarsState) (p : Param) (v : Rat) :
    getParam (setParam st p v) p = v := by
  cases p <;> rfl

theorem getParam_setParam_other (st : TarsState) (p : Param) (v : Rat) :
    getParam (setParam st p v) (otherParam p) = getParam st (otherParam p) := by
  cases p <;> rfl

theorem pending_setParam (st : TarsState) (p : Param) (v : Rat) :
    (setParam st p v).pending = none := by
  cases p <;> rfl

theorem setParam_setParam (st : TarsState) (p : Param) (v : Rat) :
    setParam (setParam st p v) p v = setParam st p v := by
  cases p <;> rfl

theorem getParam_setPending (st : TarsState) (x : Option Param) (p : Param) :
    getParam { st with pending := x } p = getParam st p := by
  cases p <;> rfl

theorem ratAdd_eq (a b : Rat) : ratAdd a b = a + b := (Rat.add_def' a b).symm

theorem ratSub_eq (a b : Rat) : ratSub a b = a - b := (Rat.sub_def' a b).symm

theorem ratMul_eq (a b : Rat) : ratMul a b = a * b := by
  unfold ratMul
  rw [Rat.mul_def, Rat.normalize_eq_mkRat]

theorem ratDivPos_eq (a : Rat) (n : Nat) : ratDivPos a n = a / (n : Rat) := by
  unfold ratDivPos
  rw [Rat.mkRat_eq_divInt, Rat.divInt_eq_div]
  push_cast
  rw [div_mul_eq_div_div, Rat.num_div_den]

/-- The default levels are the decimal values 0.8 and 0.6 of the source. -/
theorem initState_decimal : initState.honesty = 0.8 ∧ initState.humor = 0.6 := by
  constructor
  · rw [show initState.honesty = mkRat 8 10 from rfl,
      Rat.mkRat_eq_divInt, Rat.divInt_eq_div]
    norm_num
  · rw [show initState.humor = mkRat 6 10 from rfl,
      Rat.mkRat_eq_divInt, Rat.divInt_eq_div]
    norm_num

theorem le_pyMax_left (a b : Rat) : a ≤ pyMax a b := by
  unfold pyMax
  split
  · exact le_refl a
  · next h => exact le_of_not_le h

theorem pyMax_le (a b c : Rat) (ha : a ≤ c) (hb : b ≤ c) : pyMax a b ≤ c := by
  unfold pyMax
  split
  · exact ha
  · exact hb

theorem pyMin_le_right (a b : Rat) : pyMin a b ≤ b := by
  unfold pyMin
  split
  · assumption
  · exact le_refl b

theorem normValue_nonneg (v : Rat) (pct : Bool) : 0 ≤ normValue v pct :=
  le_pyMax_left 0 _

theorem normValue_le_one (v : Rat) (pct : Bool) : normValue v pct ≤ 1 :=
  pyMax_le 0 _ 1 (by norm_num) (pyMin_le_right _ 1)

/-- Case catalogue for `adjust_personality`: either it falls through with the
state untouched, or it stores one clamped value in one parameter and emits
the matching confirmation. -/
theorem adjust_cases (user_input : String) (st : TarsState) :
    adjust_personality user_input st = ((none : Option String), st) ∨
    ∃ p value, (0 ≤ value ∧ value ≤ 1) ∧
      adjust_personality user_input st
        = (some (adjustMsg p value), setParam st p value) := by
  unfold adjust_personality
  cases hf : searchFull user_input.data with
  | some g =>
    obtain ⟨p, v, pct⟩ := g
    exact Or.inr ⟨p, normValue v pct,
      ⟨normValue_nonneg v pct, normValue_le_one v pct⟩, rfl⟩
  | none =>
    cases hit : searchIt user_input.data with
    | none => exact Or.inl rfl
    | some g =>
      obtain ⟨v, pct⟩ := g
      cases hp : st.pending with
      | none => exact Or.inl rfl
      | some p =>
        exact Or.inr ⟨p, normValue v pct,
          ⟨normValue_nonneg v pct, normValue_le_one v pct⟩, rfl⟩

theorem adjust_none_eq (user_input : String) (st : TarsState)
    (h : (adjust_personality user_input st).1 = none) :
    adjust_personality user_input st = ((none : Option String), st) := by
  rcases adjust_cases user_input st with h2 | ⟨p, value, _, h2⟩
  · exact h2
  · rw [h2] at h
    simp at h

/-- Evaluation of a turn whose input is classified as a query. -/
theorem processTurn_eq_query (env : Env) (st : TarsState) (user_input : String) (p : Param)
    (hne : ¬user_input = "") (hq : queryParam user_input = some p) :
    processTurn env st user_input
      = (TurnAction.query (queryMsg p st), { st with pending := some p }) := by
  unfold processTurn
  rw [if_neg hne, hq]

/-- Evaluation of a turn on which `adjust_personality` fires. -/
theorem processTurn_eq_adjusted (env : Env) (st st1 : TarsState) (user_input msg : String)
    (hne : ¬user_input = "") (hq : queryParam user_input = none)
    (ha : adjust_personality user_input st = (some msg, st1)) :
    processTurn env st user_input = (TurnAction.adjusted msg, st1) := by
  unfold processTurn
  rw [if_neg hne, hq, ha]

/-- Evaluation of a turn past the query and adjustment rules: the exit check
and then the system-command dispatch decide the outcome. -/
theorem processTurn_eq_late (env : Env) (st : TarsState) (user_input : String)
    (hne : ¬user_input = "") (hq : queryParam user_input = none)
    (ha : adjust_personality user_input st = ((none : Option String), st)) :
    processTurn env st user_input
      = (if (exitWords.any fun w => strContains user_input w) = true then
           (TurnAction.exitLoop "Shutting down. Goodbye.", st)
         else
           match execute_command env user_input with
           | some msg => (TurnAction.command msg, st)
           | none => (TurnAction.chat (generate_llm_response env.llmReply), st)) := by
  unfold processTurn
  rw [if_neg hne, hq, ha]

/-- Case catalogue for one loop iteration: the state after a turn is the old
state, the old state with a new pending parameter, or the old state with one
clamped value stored and the pending parameter cleared. -/
theorem processTurn_state_cases (env : Env) (st : TarsState) (user_input : String) :
    (processTurn env st user_input).2 = st ∨
    (∃ p, (processTurn env st user_input).2 = { st with pending := some p }) ∨
    (∃ p value, (0 ≤ value ∧ value ≤ 1) ∧
      (processTurn env st user_input).2 = setParam st p value) := by
  by_cases hne : user_input = ""
  · left
    rw [hne]
    rfl
  · cases hq : queryParam user_input with
    | some p =>
      rw [processTurn_eq_query env st user_input p hne hq]
      exact Or.inr (Or.inl ⟨p, rfl⟩)
    | none =>
      rcases adjust_cases user_input st with ha | ⟨p, value, hv, ha⟩
      · rw [processTurn_eq_late env st user_input hne hq ha]
        by_cases hx : (exitWords.any fun w => strContains user_input w) = true
        · rw [if_pos hx]
          exact Or.inl rfl
        · rw [if_neg hx]
          cases execute_command env user_input with
          | some msg => exact Or.inl rfl
          | none => exact Or.inl rfl
      · rw [processTurn_eq_adjusted env st (setParam st p value) user_input
          (adjustMsg p value) hne hq ha]
        exact Or.inr (Or.inr ⟨p, value, hv, rfl⟩)

/-- The numeric-range invariant of the personality state. -/
def StateInv (st : TarsState) : Prop :=
  (0 ≤ st.honesty ∧ st.honesty ≤ 1) ∧ (0 ≤ st.humor ∧ st.humor ≤ 1)

theorem stateInv_setParam (st : TarsState) (p : Param) (v : Rat)
    (h : StateInv st) (hv : 0 ≤ v ∧ v ≤ 1) : StateInv (setParam st p v) := by
  cases p
  · exact ⟨hv, h.2⟩
  · exact ⟨h.1, hv⟩

theorem stateInv_processTurn (env : Env) (st : TarsState) (user_input : String)
    (h : StateInv st) : StateInv (processTurn env st user_input).2 := by
  rcases processTurn_state_cases env st user_input with he | ⟨p, he⟩ | ⟨p, value, hv, he⟩
  · rw [he]; exact h
  · rw [he]; exact h
  · rw [he]; exact stateInv_setParam st p value h hv

/-- Evaluation of `adjust_personality` on a match of the explicit pattern. -/
theorem adjust_eq_of_searchFull (user_input : String) (st : TarsState)
    (p : Param) (v : Rat) (pct : Bool)
    (h : searchFull user_input.data = some (p, v, pct)) :
    adjust_personality user_input st
      = (some (adjustMsg p (normValue v pct)), setParam st p (normValue v pct)) := by
  unfold adjust_personality
  rw [h]

/-- Evaluation of `adjust_personality` on a pending-parameter match of the
elliptical pattern. -/
theorem adjust_eq_of_searchIt (user_input : String) (st : TarsState)
    (p : Param) (v : Rat) (pct : Bool)
    (hf : searchFull user_input.data = none)
    (hit : searchIt user_input.data = some (v, pct))
    (hp : st.pending = some p) :
    adjust_personality user_input st
      = (some (adjustMsg p (normValue v pct)), setParam st p (normValue v pct)) := by
  unfold adjust_personality
  rw [hf, hit, hp]

/-! ## The claims -/

/-- C1: for every utterance matching the named-adjustment pattern
`(set|adjust) [your] (honesty|humor) [level] to N[%| percent]`, the stored
value equals `N/100` when a percent indicator is present or `N` exceeds 1,
and `N` otherwise, clamped to `[0, 1]`. -/
theorem c1_named_adjustment_normalization (user_input : String) (st : TarsState)
    (p : Param) (v : Rat) (pct : Bool)
    (h : searchFull user_input.data = some (p, v, pct)) :
    getParam (adjust_personality user_input st).2 p
      = pyMax 0 (pyMin (if pct = true ∨ 1 < v then v / 100 else v) 1) ∧
    0 ≤ getParam (adjust_personality user_input st).2 p ∧
    getParam (adjust_personality user_input st).2 p ≤ 1 := by
  rw [adjust_eq_of_searchFull user_input st p v pct h]
  have hs : getParam (setParam st p (normValue v pct)) p = normValue v pct :=
    getParam_setParam_self st p (normValue v pct)
  have hn : normValue v pct
      = pyMax 0 (pyMin (if pct = true ∨ 1 < v then v / 100 else v) 1) := by
    unfold normValue
    rw [ratDivPos_eq]
    norm_num
  refine ⟨hs.trans hn, ?_, ?_⟩
  · rw [hs]; exact normValue_nonneg v pct
  · rw [hs]; exact normValue_le_one v pct

/-- C1 witness: the value string `150` with no percent marker stores 1, not
1.5 — the raw value exceeds 1, is divided by 100 and then clamped. -/
theorem c1_witness :
    searchFull (String.data "set your honesty level to 150")
      = some (Param.honesty, 150, false) ∧
    getParam (adjust_personality "set your honesty level to 150" initState).2
      Param.honesty = 1 := by
  have h : searchFull (String.data "set your honesty level to 150")
      = some (Param.honesty, 150, false) := by decide
  refine ⟨h, ?_⟩
  have h2 := c1_named_adjustment_normalization "set your honesty level to 150"
    initState Param.honesty 150 false h
  rw [h2.1, if_pos (Or.inr (by norm_num : (1:Rat) < 150))]
  unfold pyMax pyMin
  norm_num

/-- C8: named adjustment is idempotent — processing the same
named-adjustment utterance twice in a row yields the same confirmation
sentence and the same stored state on both turns. -/
theorem c8_adjust_idempotent (user_input : String) (st : TarsState)
    (p : Param) (v : Rat) (pct : Bool)
    (h : searchFull user_input.data = some (p, v, pct)) :
    (adjust_personality user_input (adjust_personality user_input st).2).1
        = (adjust_personality user_input st).1 ∧
    (adjust_personality user_input (adjust_personality user_input st).2).2
        = (adjust_personality user_input st).2 := by
  rw [adjust_eq_of_searchFull user_input st p v pct h]
  rw [adjust_eq_of_searchFull user_input (setParam st p (normValue v pct)) p v pct h]
  exact ⟨rfl, setParam_setParam st p (normValue v pct)⟩

/-- C8 witness: `set your humor level to 45%` twice in a row. -/
theorem c8_witness :
    (adjust_personality "set your humor level to 45%"
        (adjust_personality "set your humor level to 45%" initState).2).1
      = (adjust_personality "set your humor level to 45%" initState).1 ∧
    (adjust_personality "set your humor level to 45%"
        (adjust_personality "set your humor level to 45%" initState).2).2
      = (adjust_personality "set your humor level to 45%" initState).2 :=
  c8_adjust_idempotent "set your humor level to 45%" initState
    Param.humor 45 true (by decide)

/-- C9: an empty transcription is a no-op turn — nothing is classified or
spoken and the whole state is unchanged. -/
theorem c9_empty_input_noop (env : Env) (st : TarsState) :
    processTurn env st "" = (TurnAction.noop, st) := rfl

/-- C10 (frame property): a named or pending adjustment leaves the other
parameter untouched and clears the pending slot, and a query turn leaves
both numeric parameters untouched. -/
theorem c10_frame (env : Env) (st : TarsState) (user_input : String) :
    (∀ p v pct, searchFull user_input.data = some (p, v, pct) →
      getParam (adjust_personality user_input st).2 (otherParam p)
          = getParam st (otherParam p) ∧
      (adjust_personality user_input st).2.pending = none) ∧
    (∀ p v pct, searchFull user_input.data = none →
      searchIt user_input.data = some (v, pct) → st.pending = some p →
      getParam (adjust_personality user_input st).2 (otherParam p)
          = getParam st (otherParam p) ∧
      (adjust_personality user_input st).2.pending = none) ∧
    (∀ p, queryParam user_input = some p → ¬user_input = "" →
      (processTurn env st user_input).2.honesty = st.honesty ∧
      (processTurn env st user_input).2.humor = st.humor) := by
  refine ⟨?_, ?_, ?_⟩
  · intro p v pct h
    rw [adjust_eq_of_searchFull user_input st p v pct h]
    exact ⟨getParam_setParam_other st p (normValue v pct),
      pending_setParam st p (normValue v pct)⟩
  · intro p v pct hf hit hp
    rw [adjust_eq_of_searchIt user_input st p v pct hf hit hp]
    exact ⟨getParam_setParam_other st p (normValue v pct),
      pending_setParam st p (normValue v pct)⟩
  · intro p hq hne
    rw [processTurn_eq_query env st user_input p hne hq]
    exact ⟨rfl, rfl⟩

/-- C10 witness: a named honesty adjustment leaves humor at its default,
and a humor query leaves both numeric levels at their defaults. -/
theorem c10_witness :
    getParam (adjust_personality "set your honesty level to 50" initState).2
        (otherParam Param.honesty)
      = getParam initState (otherParam Param.honesty) ∧
    (processTurn ⟨false, none⟩ initState "what is my humor level").2.honesty
        = initState.honesty ∧
    (processTurn ⟨false, none⟩ initState "what is my humor level").2.humor
        = initState.humor := by
  refine ⟨((c10_frame ⟨false, none⟩ initState "set your honesty level to 50").1
    Param.honesty 50 false (by decide)).1, ?_⟩
  exact (c10_frame ⟨false, none⟩ initState "what is my humor level").2.2
    Param.humor (by decide) (by decide)

/-- C2: every state the loop can reach from the defaults (honesty 0.8,
humor 0.6) keeps both numeric personality fields within `[0, 1]`, whatever
the inputs and the environment do on each turn. -/
theorem c2_personality_invariant (st : TarsState) (h : Reachable st) :
    0 ≤ st.honesty ∧ st.honesty ≤ 1 ∧ 0 ≤ st.humor ∧ st.humor ≤ 1 := by
  have hi : StateInv st := by
    induction h with
    | init =>
      constructor
      · constructor <;> decide
      · constructor <;> decide
    | step env input hst ih => exact stateInv_processTurn env _ input ih
  exact ⟨hi.1.1, hi.1.2, hi.2.1, hi.2.2⟩

/-- C2 witness: the invariant at the initial state and after one
adjustment turn from it. -/
theorem c2_witness :
    (0 ≤ initState.honesty ∧ initState.honesty ≤ 1 ∧
     0 ≤ initState.humor ∧ initState.humor ≤ 1) ∧
    (0 ≤ (processTurn ⟨false, none⟩ initState "set honesty to 150").2.honesty ∧
     (processTurn ⟨false, none⟩ initState "set honesty to 150").2.honesty ≤ 1) := by
  constructor
  · exact c2_personality_invariant initState Reachable.init
  · have h := c2_personality_invariant _
      (Reachable.step ⟨false, none⟩ "set honesty to 150" Reachable.init)
    exact ⟨h.1, h.2.1⟩

theorem endsPunct_nonempty {s : List Char} (h : endsPunct s = true) :
    s.isEmpty = false := by
  cases s with
  | nil => simp [endsPunct] at h
  | cons c cs => rfl

theorem endsPunct_append_dot (s : List Char) :
    endsPunct (s ++ ['.']) = true := by
  induction s with
  | nil => rfl
  | cons c cs ih =>
    cases cs with
    | nil => rfl
    | cons d ds =>
      rw [List.cons_append]
      exact ih

/-- C3 counterexample: when the adapter extracts an empty content string the
emitted output is the single character `.` — the stripped empty first
sentence gets a period appended, the emptiness guard no longer fires, and
the fixed apology sentence is not produced. -/
theorem c3_counterexample :
    generate_llm_response (some "") = "." ∧
    generate_llm_response (some "") ≠ apologySentence := by
  constructor
  · rfl
  · decide

/-- The one-liner enforcement never returns the empty string. -/
theorem formatResponse_ne_empty (s : String) : formatResponse s ≠ "" := by
  unfold formatResponse
  dsimp only
  by_cases hp : endsPunct (pyStrip (firstSentenceAux s.data)) = true
  · rw [if_pos hp, if_neg (by rw [endsPunct_nonempty hp]; exact Bool.false_ne_true)]
    intro he
    have hd := congrArg String.data he
    simp at hd
    rw [hd] at hp
    simp [endsPunct] at hp
  · rw [if_neg hp, if_neg (by
      cases pyStrip (firstSentenceAux s.data) with
      | nil => exact fun hc => by simp at hc
      | cons c cs => exact fun hc => by rw [List.cons_append] at hc; simp at hc)]
    intro he
    have hd := congrArg String.data he
    simp at hd

/-- The one-liner enforcement always ends in `.`, `!` or `?`. -/
theorem formatResponse_endsPunct (s : String) :
    endsPunct (formatResponse s).data = true := by
  unfold formatResponse
  dsimp only
  by_cases hp : endsPunct (pyStrip (firstSentenceAux s.data)) = true
  · rw [if_pos hp, if_neg (by rw [endsPunct_nonempty hp]; exact Bool.false_ne_true)]
    exact hp
  · rw [if_neg hp, if_neg (by
      cases pyStrip (firstSentenceAux s.data) with
      | nil => exact fun hc => by simp at hc
      | cons c cs => exact fun hc => by rw [List.cons_append] at hc; simp at hc)]
    exact endsPunct_append_dot _

/-- C3 (amended): the formatting step always returns a non-empty string
terminated by `.`, `!` or `?`; the fixed apology sentence is emitted only
when the model call itself raises; an empty extracted content string yields
the single character `.`, not the apology. -/
theorem c3_formatter_amended (reply : Option String) :
    generate_llm_response reply ≠ "" ∧
    endsPunct (generate_llm_response reply).data = true ∧
    generate_llm_response none = apologySentence ∧
    generate_llm_response (some "") = "." := by
  refine ⟨?_, ?_, rfl, rfl⟩ <;>
    cases reply with
    | none => decide
    | some content =>
      first
      | exact formatResponse_ne_empty (String.mk (pyStrip content.data))
      | exact formatResponse_endsPunct (String.mk (pyStrip content.data))

/-- C4: an utterance that contains an exit substring and is not caught by
the earlier query or adjustment rules terminates the loop with the farewell
sentence, even when it also contains a system-command substring — the exit
rule precedes command dispatch, so no command is executed. -/
theorem c4_exit_precedence (env : Env) (st : TarsState) (user_input : String)
    (hne : ¬user_input = "")
    (hq : queryParam user_input = none)
    (ha : (adjust_personality user_input st).1 = none)
    (hx : (exitWords.any fun w => strContains user_input w) = true) :
    processTurn env st user_input
      = (TurnAction.exitLoop "Shutting down. Goodbye.", st) := by
  rw [processTurn_eq_late env st user_input hne hq
    (adjust_none_eq user_input st ha), if_pos hx]

/-- C4 witness: `goodbye, open browser` exits without launching the
browser. -/
theorem c4_witness :
    processTurn ⟨false, none⟩ initState "goodbye, open browser"
      = (TurnAction.exitLoop "Shutting down. Goodbye.", initState) :=
  c4_exit_precedence ⟨false, none⟩ initState "goodbye, open browser"
    (by decide) (by decide) (by decide) (by decide)

/-- C7: an utterance containing the substrings `honesty`, `what` and
`level` is a query turn that records honesty as pending and reports the
current honesty level as a rounded percentage; when the honesty condition
fails, the substrings `humor`, `what` and `level` make it the analogous
humor query. -/
theorem c7_query_classification (env : Env) (st : TarsState) (user_input : String)
    (hne : ¬user_input = "") :
    ((strContains user_input "honesty" && strContains user_input "what"
        && strContains user_input "level") = true →
      processTurn env st user_input
        = (TurnAction.query ("My honesty level is " ++ fmtPercent st.honesty
              ++ " percent."),
           { st with pending := some Param.honesty })) ∧
    ((strContains user_input "honesty" && strContains user_input "what"
        && strContains user_input "level") = false →
     (strContains user_input "humor" && strContains user_input "what"
        && strContains user_input "level") = true →
      processTurn env st user_input
        = (TurnAction.query ("My humor level is " ++ fmtPercent st.humor
              ++ " percent."),
           { st with pending := some Param.humor })) := by
  constructor
  · intro h1
    have hq : queryParam user_input = some Param.honesty := by
      unfold queryParam
      rw [if_pos h1]
    rw [processTurn_eq_query env st user_input Param.honesty hne hq]
    rfl
  · intro h0 h1
    have hq : queryParam user_input = some Param.humor := by
      unfold queryParam
      rw [if_neg (by rw [h0]; exact Bool.false_ne_true), if_pos h1]
    rw [processTurn_eq_query env st user_input Param.humor hne hq]
    rfl

/-- C7 witness: `what is my honesty level` in the default state reports 80
percent and records honesty as pending. -/
theorem c7_witness :
    processTurn ⟨false, none⟩ initState "what is my honesty level"
      = (TurnAction.query "My honesty level is 80 percent.",
         { initState with pending := some Param.honesty }) := by
  have h := (c7_query_classification ⟨false, none⟩ initState
    "what is my honesty level" (by decide)).1 (by decide)
  exact h.trans (by decide)

/-- C6 counterexample: when the browser launch call raises, the exception
is caught before the confirmation is spoken — `execute_command` returns no
confirmation and reports `False`, so the turn falls through to the language
model instead of confirming; the user never hears a confirmation sentence. -/
theorem c6_counterexample :
    execute_command ⟨true, none⟩ "open browser" = none ∧
    processTurn ⟨true, none⟩ initState "open browser"
      = (TurnAction.chat apologySentence, initState) ∧
    (∀ msg, (processTurn ⟨true, none⟩ initState "open browser").1
        ≠ TurnAction.command msg) := by
  refine ⟨rfl, by decide, ?_⟩
  intro msg h
  rw [show (processTurn ⟨true, none⟩ initState "open browser").1
    = TurnAction.chat apologySentence by decide] at h
  exact TurnAction.noConfusion h

/-- C6 (amended): on a system-command turn the confirmation is spoken and
the loop continues whenever the launch call returns — regardless of the
launched command's eventual outcome; but when the browser launch call
raises, the failure is only logged, no confirmation is spoken, and the turn
falls through to the chat path. -/
theorem c6_command_confirmation_amended (env : Env) (st : TarsState)
    (user_input : String)
    (hne : ¬user_input = "")
    (hq : queryParam user_input = none)
    (ha : (adjust_personality user_input st).1 = none)
    (hx : (exitWords.any fun w => strContains user_input w) = false) :
    (strContains user_input "open browser" = true → env.browserRaises = false →
      processTurn env st user_input
        = (TurnAction.command "Opening browser.", st)) ∧
    (strContains user_input "open browser" = true → env.browserRaises = true →
      processTurn env st user_input
        = (TurnAction.chat (generate_llm_response env.llmReply), st)) ∧
    (strContains user_input "open browser" = false →
     strContains user_input "system info" = true →
      processTurn env st user_input
        = (TurnAction.command "Displaying system information.", st)) := by
  have hlate := processTurn_eq_late env st user_input hne hq
    (adjust_none_eq user_input st ha)
  rw [if_neg (by rw [hx]; exact Bool.false_ne_true)] at hlate
  refine ⟨?_, ?_, ?_⟩
  · intro hb hr
    have he : execute_command env user_input = some "Opening browser." := by
      unfold execute_command
      rw [if_pos hb, if_neg (by rw [hr]; exact Bool.false_ne_true)]
    rw [hlate, he]
  · intro hb hr
    have he : execute_command env user_input = none := by
      unfold execute_command
      rw [if_pos hb, if_pos hr]
    rw [hlate, he]
  · intro hb hs
    have he : execute_command env user_input
        = some "Displaying system information." := by
      unfold execute_command
      rw [if_neg (by rw [hb]; exact Bool.false_ne_true), if_pos hs]
    rw [hlate, he]

/-- C6 witness: `open browser` with a launch call that returns speaks the
confirmation and leaves the state unchanged. -/
theorem c6_witness :
    processTurn ⟨false, none⟩ initState "open browser"
      = (TurnAction.command "Opening browser.", initState) :=
  (c6_command_confirmation_amended ⟨false, none⟩ initState "open browser"
    (by decide) (by decide) (by decide) (by decide)).1 (by decide) rfl

/-- C5: the query-then-pending-adjust round trip.  A query turn records its
parameter as pending without touching the numeric levels; a following
`set it to N` turn adjusts exactly that parameter, leaves the other
untouched and clears the pending slot; a third `set it to N` turn with no
intervening query produces no adjustment and falls through to the chat
path with the state unchanged. -/
theorem c5_round_trip (env : Env) (st : TarsState) (q u : String)
    (p : Param) (v : Rat) (pct : Bool)
    (hqq : queryParam q = some p) (hqne : ¬q = "")
    (hune : ¬u = "") (huq : queryParam u = none)
    (hufull : searchFull u.data = none)
    (huit : searchIt u.data = some (v, pct))
    (hux : (exitWords.any fun w => strContains u w) = false)
    (hub : strContains u "open browser" = false)
    (hus : strContains u "system info" = false) :
    ((processTurn env st q).2.pending = some p ∧
     (processTurn env st q).2.honesty = st.honesty ∧
     (processTurn env st q).2.humor = st.humor) ∧
    ((processTurn env (processTurn env st q).2 u).1
        = TurnAction.adjusted (adjustMsg p (normValue v pct)) ∧
     getParam (processTurn env (processTurn env st q).2 u).2 p = normValue v pct ∧
     getParam (processTurn env (processTurn env st q).2 u).2 (otherParam p)
        = getParam st (otherParam p) ∧
     (processTurn env (processTurn env st q).2 u).2.pending = none) ∧
    processTurn env (processTurn env (processTurn env st q).2 u).2 u
      = (TurnAction.chat (generate_llm_response env.llmReply),
         (processTurn env (processTurn env st q).2 u).2) := by
  have e1 : processTurn env st q
      = (TurnAction.query (queryMsg p st), { st with pending := some p }) :=
    processTurn_eq_query env st q p hqne hqq
  have e2 : adjust_personality u { st with pending := some p }
      = (some (adjustMsg p (normValue v pct)),
         setParam { st with pending := some p } p (normValue v pct)) :=
    adjust_eq_of_searchIt u { st with pending := some p } p v pct hufull huit rfl
  have e3 : processTurn env { st with pending := some p } u
      = (TurnAction.adjusted (adjustMsg p (normValue v pct)),
         setParam { st with pending := some p } p (normValue v pct)) :=
    processTurn_eq_adjusted env { st with pending := some p }
      (setParam { st with pending := some p } p (normValue v pct))
      u (adjustMsg p (normValue v pct)) hune huq e2
  have e4 : adjust_personality u
      (setParam { st with pending := some p } p (normValue v pct))
      = ((none : Option String),
         setParam { st with pending := some p } p (normValue v pct)) := by
    unfold adjust_personality
    rw [hufull, huit, pending_setParam]
  have e5 : processTurn env
      (setParam { st with pending := some p } p (normValue v pct)) u
      = (TurnAction.chat (generate_llm_response env.llmReply),
         setParam { st with pending := some p } p (normValue v pct)) := by
    have hlate := processTurn_eq_late env
      (setParam { st with pending := some p } p (normValue v pct)) u hune huq e4
    rw [if_neg (by rw [hux]; exact Bool.false_ne_true)] at hlate
    rw [hlate, show execute_command env u = none by
      unfold execute_command
      rw [if_neg (by rw [hub]; exact Bool.false_ne_true),
        if_neg (by rw [hus]; exact Bool.false_ne_true)]]
  refine ⟨⟨by rw [e1], by rw [e1], by rw [e1]⟩, ⟨?_, ?_, ?_, ?_⟩, ?_⟩
  · rw [e1]
    dsimp only
    rw [e3]
  · rw [e1]
    dsimp only
    rw [e3]
    exact getParam_setParam_self _ p _
  · rw [e1]
    dsimp only
    rw [e3]
    exact (getParam_setParam_other _ p _).trans (getParam_setPending st (some p) _)
  · rw [e1]
    dsimp only
    rw [e3]
    exact pending_setParam _ p _
  · rw [e1]
    dsimp only
    rw [e3]
    dsimp only
    rw [e5]

/-- C5 witness: query honesty, then `set it to 30` stores 0.3 in honesty
and clears the pending slot, and a repeated `set it to 30` falls through to
chat unchanged. -/
theorem c5_witness :
    (processTurn ⟨false, none⟩ initState "what is my honesty level").2.pending
        = some Param.honesty ∧
    (processTurn ⟨false, none⟩
        (processTurn ⟨false, none⟩ initState "what is my honesty level").2
        "set it to 30").2.honesty = mkRat 3 10 ∧
    (processTurn ⟨false, none⟩
        (processTurn ⟨false, none⟩ initState "what is my honesty level").2
        "set it to 30").2.pending = none ∧
    (processTurn ⟨false, none⟩
        (processTurn ⟨false, none⟩
          (processTurn ⟨false, none⟩ initState "what is my honesty level").2
          "set it to 30").2 "set it to 30").1
      = TurnAction.chat (generate_llm_response none) := by
  have h := c5_round_trip ⟨false, none⟩ initState "what is my honesty level"
    "set it to 30" Param.honesty 30 false (by decide) (by decide) (by decide)
    (by decide) (by decide) (by decide) (by decide) (by decide) (by decide)
  refine ⟨h.1.1, ?_, h.2.1.2.2.2, ?_⟩
  · have h2 := h.2.1.2.1
    rw [show normValue 30 false = mkRat 3 10 by decide] at h2
    exact h2
  · rw [h.2.2]
